import Mathlib

/-!
Verification of `package_control/loader.py`: an archive-backed loader
manifest manager.  Strings from the source are embedded as `List Char`,
byte payloads as `List Nat`.  The Python 3 branch stores loader entries in
a zip archive at `loader_package_path` ("the live archive"); removal
rewrites the archive to `new_loader_package_path` ("the staged
replacement"), temporarily renaming an existing staged file to
`intermediate_loader_package_path`.  The module-level mutable state
(`non_local['loaders']`, `non_local['swap_queued']`, and the existence and
contents of the three archive paths) is embedded as `LoaderState`.
-/

namespace Loader

/-- Archive entry or directory file: (filename, payload bytes). -/
abbrev Entry := List Char × List Nat

/-- Semantics of the tail of the regex `'^\d\d-%s.pyc?$' % re.escape(name)`
after the two digits, the hyphen and the escaped (hence literal) dependency
name have been consumed: one arbitrary character other than a newline (the
unescaped `.` metacharacter), then `py`, then an optional `c`, then the
end of the string. -/
def tailOK (rest : List Char) : Bool :=
  match rest with
  | [s, b, c] => s != '\n' && b == 'p' && c == 'y'
  | [s, b, c, d] => s != '\n' && b == 'p' && c == 'y' && d == 'c'
  | _ => false

/-- Matching of the escaped dependency name (a literal, thanks to
`re.escape`) followed by the extension tail. -/
def matchTail (name rest : List Char) : Bool :=
  match name with
  | [] => tailOK rest
  | c :: name' =>
    match rest with
    | [] => false
    | r :: rest' => c == r && matchTail name' rest'

/-- The non-ASCII ranges of Unicode general category Nd (decimal digits),
as (first, last) codepoint pairs, per Unicode 15.0.  In the Python 3
branch the pattern is a `str`, so `\d` matches exactly category Nd — the
ASCII digits plus these ranges.  (The exact table shifts slightly with the
host Python's Unicode version; the theorems below depend only on the
membership of a handful of concrete characters, e.g. the Arabic-Indic
digits U+0663/U+0664 and the non-membership of `-`, `.` and the ASCII
letters, on which all versions agree.) -/
def nd_ranges_beyond_ascii : List (Nat × Nat) :=
  [(0x660, 0x669), (0x6F0, 0x6F9), (0x7C0, 0x7C9), (0x966, 0x96F),
   (0x9E6, 0x9EF), (0xA66, 0xA6F), (0xAE6, 0xAEF), (0xB66, 0xB6F),
   (0xBE6, 0xBEF), (0xC66, 0xC6F), (0xCE6, 0xCEF), (0xD66, 0xD6F),
   (0xDE6, 0xDEF), (0xE50, 0xE59), (0xED0, 0xED9), (0xF20, 0xF29),
   (0x1040, 0x1049), (0x1090, 0x1099), (0x17E0, 0x17E9), (0x1810, 0x1819),
   (0x1946, 0x194F), (0x19D0, 0x19D9), (0x1A80, 0x1A89), (0x1A90, 0x1A99),
   (0x1B50, 0x1B59), (0x1BB0, 0x1BB9), (0x1C40, 0x1C49), (0x1C50, 0x1C59),
   (0xA620, 0xA629), (0xA8D0, 0xA8D9), (0xA900, 0xA909), (0xA9D0, 0xA9D9),
   (0xA9F0, 0xA9F9), (0xAA50, 0xAA59), (0xABF0, 0xABF9), (0xFF10, 0xFF19),
   (0x104A0, 0x104A9), (0x10D30, 0x10D39), (0x11066, 0x1106F),
   (0x110F0, 0x110F9), (0x11136, 0x1113F), (0x111D0, 0x111D9),
   (0x112F0, 0x112F9), (0x11450, 0x11459), (0x114D0, 0x114D9),
   (0x11650, 0x11659), (0x116C0, 0x116C9), (0x11730, 0x11739),
   (0x118E0, 0x118E9), (0x11950, 0x11959), (0x11C50, 0x11C59),
   (0x11D50, 0x11D59), (0x11DA0, 0x11DA9), (0x11F50, 0x11F59),
   (0x16A60, 0x16A69), (0x16AC0, 0x16AC9), (0x16B50, 0x16B59),
   (0x1D7CE, 0x1D7FF), (0x1E140, 0x1E149), (0x1E2F0, 0x1E2F9),
   (0x1E4F0, 0x1E4F9), (0x1E950, 0x1E959), (0x1FBF0, 0x1FBF9)]

/-- Semantics of `\d` in the Python 3 branch: any Unicode decimal digit
(category Nd) — the ASCII digits or a codepoint in one of the non-ASCII
Nd ranges. -/
def pyDigit (c : Char) : Bool :=
  c.isDigit || nd_ranges_beyond_ascii.any (fun r => r.1 ≤ c.toNat && c.toNat ≤ r.2)

/-- Embedding of `re.match(u'^\\d\\d-%s.pyc?$' % re.escape(name), filename)`
as used by both `exists` (loader.py line 91) and `remove` (line 262):
two decimal digits (Unicode `\d`, see `pyDigit`), a hyphen, the dependency
name as an opaque literal, any single character except a newline, `py`, an
optional `c`, end of string.  (`re.match` anchors at the start; the
trailing-newline tolerance of `$` is irrelevant here because every string
this program tests it against ends in `y` or `c`.) -/
def re_match_loader (name filename : List Char) : Bool :=
  match filename with
  | d1 :: d2 :: h :: rest => pyDigit d1 && pyDigit d2 && h == '-' && matchTail name rest
  | _ => false

/-- Embedding of `loader_filename = '%s-%s.py' % (priority, name)`
(loader.py line 149). -/
def loader_filename (priority name : List Char) : List Char :=
  priority ++ '-' :: name ++ ['.', 'p', 'y']

/-- A priority string consisting of exactly two ASCII digits. -/
def isTwoDigit (p : List Char) : Bool :=
  match p with
  | [a, b] => a.isDigit && b.isDigit
  | _ => false

/-- A priority string consisting of exactly two decimal digits in the
sense of the pattern's `\d` (Unicode category Nd). -/
def isTwoPyDigit (p : List Char) : Bool :=
  match p with
  | [a, b] => pyDigit a && pyDigit b
  | _ => false

/-- ASCII digits are decimal digits. -/
theorem pyDigit_of_isDigit {c : Char} (h : c.isDigit = true) : pyDigit c = true := by
  simp [pyDigit, h]

/-- An archive entry name that follows the documented naming convention for
dependency `n`: two ASCII digits, a hyphen, the name, and the `.py` or
`.pyc` extension. -/
def namedFor (n filename : List Char) : Prop :=
  ∃ d1 d2 : Char, d1.isDigit = true ∧ d2.isDigit = true ∧
    (filename = d1 :: d2 :: '-' :: (n ++ ['.', 'p', 'y']) ∨
     filename = d1 :: d2 :: '-' :: (n ++ ['.', 'p', 'y', 'c']))

theorem tailOK_eq {rest : List Char} (h : tailOK rest = true) :
    ∃ s : Char, rest = [s, 'p', 'y'] ∨ rest = [s, 'p', 'y', 'c'] := by
  match rest with
  | [s, b, c] =>
    simp only [tailOK, Bool.and_eq_true, bne_iff_ne, beq_iff_eq] at h
    exact ⟨s, Or.inl (by simp [h.1.2, h.2])⟩
  | [s, b, c, d] =>
    simp only [tailOK, Bool.and_eq_true, bne_iff_ne, beq_iff_eq] at h
    exact ⟨s, Or.inr (by simp [h.1.1.2, h.1.2, h.2])⟩
  | [] => simp [tailOK] at h
  | [_] => simp [tailOK] at h
  | [_, _] => simp [tailOK] at h
  | _ :: _ :: _ :: _ :: _ :: _ => simp [tailOK] at h

theorem matchTail_eq {name rest : List Char} (h : matchTail name rest = true) :
    ∃ s : Char, rest = name ++ [s, 'p', 'y'] ∨ rest = name ++ [s, 'p', 'y', 'c'] := by
  induction name generalizing rest with
  | nil =>
    obtain ⟨s, hs⟩ := tailOK_eq h
    exact ⟨s, by simpa using hs⟩
  | cons c name' ih =>
    match rest with
    | [] => simp [matchTail] at h
    | r :: rest' =>
      simp only [matchTail, Bool.and_eq_true, beq_iff_eq] at h
      obtain ⟨s, hs⟩ := ih h.2
      refine ⟨s, ?_⟩
      cases hs with
      | inl hs => exact Or.inl (by simp [h.1, hs])
      | inr hs => exact Or.inr (by simp [h.1, hs])

theorem matchTail_self (name : List Char) (s : Char) (hs : s ≠ '\n') :
    matchTail name (name ++ [s, 'p', 'y']) = true := by
  induction name with
  | nil => simp [matchTail, tailOK, hs]
  | cons c name' ih => simp [matchTail, ih]

theorem re_match_loader_eq {name filename : List Char}
    (h : re_match_loader name filename = true) :
    ∃ (d1 d2 : Char) (rest : List Char),
      filename = d1 :: d2 :: '-' :: rest ∧ pyDigit d1 = true ∧ pyDigit d2 = true ∧
      matchTail name rest = true := by
  match filename with
  | [] => simp [re_match_loader] at h
  | [_] => simp [re_match_loader] at h
  | [_, _] => simp [re_match_loader] at h
  | d1 :: d2 :: hy :: rest =>
    simp only [re_match_loader, Bool.and_eq_true, beq_iff_eq] at h
    exact ⟨d1, d2, rest, by simp [h.1.2], h.1.1.1, h.1.1.2, h.2⟩

theorem re_match_loader_self {a b : Char} (ha : a.isDigit = true) (hb : b.isDigit = true)
    (name : List Char) :
    re_match_loader name (loader_filename [a, b] name) = true := by
  have : loader_filename [a, b] name = a :: b :: '-' :: (name ++ ['.', 'p', 'y']) := by
    simp [loader_filename]
  rw [this]
  simp only [re_match_loader, pyDigit_of_isDigit ha, pyDigit_of_isDigit hb,
    Bool.true_and, beq_self_eq_true]
  exact matchTail_self name '.' (by decide)

theorem getLast?_append_singleton (l : List Char) (a : Char) :
    (l ++ [a]).getLast? = some a := by
  induction l with
  | nil => rfl
  | cons x xs ih =>
    rw [List.cons_append, List.getLast?_cons]
    simp [ih]

/-- Core cross-name safety fact: the pattern built for `n1` never matches an
entry that follows the naming convention for a different name `n2`. -/
theorem re_match_loader_ne {n1 n2 filename : List Char} (hne : n1 ≠ n2)
    (hnamed : namedFor n2 filename) : re_match_loader n1 filename = false := by
  by_contra hcon
  have hm : re_match_loader n1 filename = true := by
    cases h : re_match_loader n1 filename with
    | false => exact absurd h hcon
    | true => rfl
  obtain ⟨d1, d2, rest, hfn, _, _, htail⟩ := re_match_loader_eq hm
  obtain ⟨e1, e2, _, _, hshape⟩ := hnamed
  obtain ⟨s, hrest⟩ := matchTail_eq htail
  -- in each combination either the lengths disagree or the last characters do,
  -- except when the shapes coincide, which forces n1 = n2
  have hrest' : rest = n2 ++ ['.', 'p', 'y'] ∨ rest = n2 ++ ['.', 'p', 'y', 'c'] := by
    cases hshape with
    | inl hs =>
      rw [hs] at hfn
      simp only [List.cons.injEq] at hfn
      exact Or.inl hfn.2.2.2.symm
    | inr hs =>
      rw [hs] at hfn
      simp only [List.cons.injEq] at hfn
      exact Or.inr hfn.2.2.2.symm
  cases hrest' with
  | inl h2 =>
    cases hrest with
    | inl h1 =>
      -- n2 ++ [., p, y] = n1 ++ [s, p, y]: equal lengths force n1 = n2
      rw [h2] at h1
      have hlen : n2.length = n1.length := by
        have := congrArg List.length h1
        simpa using this
      exact hne (List.append_inj h1.symm hlen.symm).1
    | inr h1 =>
      -- n2 ++ [., p, y] = n1 ++ [s, p, y, c]: last characters differ
      rw [h2] at h1
      have hy : (n2 ++ ['.', 'p', 'y']).getLast? = some 'y' := by
        have : n2 ++ ['.', 'p', 'y'] = (n2 ++ ['.', 'p']) ++ ['y'] := by simp
        rw [this, getLast?_append_singleton]
      have hc : (n1 ++ [s, 'p', 'y', 'c']).getLast? = some 'c' := by
        have : n1 ++ [s, 'p', 'y', 'c'] = (n1 ++ [s, 'p', 'y']) ++ ['c'] := by simp
        rw [this, getLast?_append_singleton]
      rw [h1, hc] at hy
      simp at hy
  | inr h2 =>
    cases hrest with
    | inl h1 =>
      -- n2 ++ [., p, y, c] = n1 ++ [s, p, y]: last characters differ
      rw [h2] at h1
      have hcL : (n2 ++ ['.', 'p', 'y', 'c']).getLast? = some 'c' := by
        have : n2 ++ ['.', 'p', 'y', 'c'] = (n2 ++ ['.', 'p', 'y']) ++ ['c'] := by simp
        rw [this, getLast?_append_singleton]
      have hyR : (n1 ++ [s, 'p', 'y']).getLast? = some 'y' := by
        have : n1 ++ [s, 'p', 'y'] = (n1 ++ [s, 'p']) ++ ['y'] := by simp
        rw [this, getLast?_append_singleton]
      rw [h1, hyR] at hcL
      simp at hcL
    | inr h1 =>
      -- n2 ++ [., p, y, c] = n1 ++ [s, p, y, c]: equal lengths force n1 = n2
      rw [h2] at h1
      have hlen : n2.length = n1.length := by
        have := congrArg List.length h1
        simpa using this
      exact hne (List.append_inj h1.symm hlen.symm).1

/-- Core fact for the implicit naming-convention claim: when the priority
string is not exactly two ASCII digits, the filename `add` writes never
matches the pattern `exists` and `remove` build for the same name. -/
theorem re_match_loader_bad_priority {p n : List Char} (hp : isTwoPyDigit p = false) :
    re_match_loader n (loader_filename p n) = false := by
  by_contra hcon
  have hm : re_match_loader n (loader_filename p n) = true := by
    cases h : re_match_loader n (loader_filename p n) with
    | false => exact absurd h hcon
    | true => rfl
  obtain ⟨d1, d2, rest, hfn, hd1, hd2, htail⟩ := re_match_loader_eq hm
  match p with
  | [] =>
    -- filename starts with the hyphen, which is not a digit
    have : loader_filename [] n = '-' :: (n ++ ['.', 'p', 'y']) := by simp [loader_filename]
    rw [this] at hfn
    have : d1 = '-' := by
      have := congrArg (fun l => l.head?) hfn
      simpa using this.symm
    rw [this] at hd1
    exact absurd hd1 (by decide)
  | [a] =>
    have : loader_filename [a] n = a :: '-' :: (n ++ ['.', 'p', 'y']) := by
      simp [loader_filename]
    rw [this] at hfn
    have : d2 = '-' := by
      have := congrArg (fun l => l.tail.head?) hfn
      simpa using this.symm
    rw [this] at hd2
    exact absurd hd2 (by decide)
  | [a, b] =>
    have ha : d1 = a ∧ d2 = b := by
      have h0 := congrArg (fun l => l.head?) hfn
      have h1 := congrArg (fun l => l.tail.head?) hfn
      simp [loader_filename] at h0 h1
      exact ⟨h0.symm, h1.symm⟩
    rw [← ha.1, ← ha.2] at hp
    simp [isTwoPyDigit, hd1, hd2] at hp
  | a :: b :: c :: p' =>
    have hfn' : loader_filename (a :: b :: c :: p') n
        = a :: b :: c :: (p' ++ '-' :: n ++ ['.', 'p', 'y']) := by
      simp [loader_filename]
    rw [hfn'] at hfn
    have hrest : rest = p' ++ '-' :: n ++ ['.', 'p', 'y'] := by
      have := congrArg (fun l => l.tail.tail.tail) hfn
      simpa using this.symm
    obtain ⟨s, hs⟩ := matchTail_eq htail
    cases hs with
    | inl hs =>
      rw [hrest] at hs
      have := congrArg List.length hs
      simp at this
      omega
    | inr hs =>
      rw [hrest] at hs
      have hlen := congrArg List.length hs
      simp at hlen
      have hp' : p' = [] := by
        cases p' with
        | nil => rfl
        | cons x xs => simp at hlen
      subst hp'
      -- rest = '-' :: n ++ [., p, y] ends in 'y', but n ++ [s, p, y, c] ends in 'c'
      have hyL : (([] : List Char) ++ '-' :: n ++ ['.', 'p', 'y']).getLast? = some 'y' := by
        have : (([] : List Char) ++ '-' :: n ++ ['.', 'p', 'y'])
            = (('-' :: n) ++ ['.', 'p']) ++ ['y'] := by simp
        rw [this, getLast?_append_singleton]
      have hcR : (n ++ [s, 'p', 'y', 'c']).getLast? = some 'c' := by
        have : n ++ [s, 'p', 'y', 'c'] = (n ++ [s, 'p', 'y']) ++ ['c'] := by simp
        rw [this, getLast?_append_singleton]
      rw [hs, hcR] at hyL
      simp at hyL

/-! ## State model

The module-level state touched by the Python 3 ("archive layout") branch:
the contents of the three archive paths (absent is modelled as `none`),
the cached entry-name list `non_local['loaders']`, and the
`non_local['swap_queued']` flag. -/

/-- Module-level mutable state of loader.py, archive layout. -/
structure LoaderState where
  live : Option (List Entry)
  staged : Option (List Entry)
  intermediate : Option (List Entry)
  loaders : Option (List (List Char))
  swap_queued : Bool
deriving Repr, DecidableEq

/-- Host platform, as returned by `sublime.platform()`. -/
inductive Platform
  | windows
  | osx
  | linux
deriving Repr, DecidableEq

/-- Platform name string. -/
def Platform.str : Platform → List Char
  | windows => "windows".toList
  | osx => "osx".toList
  | linux => "linux".toList

/-- The `loader_metadata` dict built in `add` (loader.py lines 153-161). -/
structure LoaderMetadata where
  version : List Char
  sublime_text : List Char
  platforms : List (List Char)
  url : List Char
  description : List Char
deriving Repr, DecidableEq

/-- Field values of the `loader_metadata` dict. -/
def loader_metadata (p : Platform) : LoaderMetadata :=
  { version := "1.0.0".toList
    sublime_text := "*".toList
    platforms := [p.str]
    url := "https://github.com/wbond/package_control/issues".toList
    description := "Package Control dependency loader".toList }

/-- JSON string literal rendering.  None of the values serialized by
loader.py contain characters that `json.dumps` escapes, so quoting is
plain. -/
def json_quote (s : List Char) : List Char := '"' :: s ++ ['"']

/-- Rendering of `json.dumps(loader_metadata)` with the default
separators, keys in insertion order (loader.py line 162). -/
def loader_metadata_json (p : Platform) : List Char :=
  "\x7b".toList
    ++ json_quote "version".toList ++ ": ".toList ++ json_quote "1.0.0".toList
    ++ ", ".toList
    ++ json_quote "sublime_text".toList ++ ": ".toList ++ json_quote "*".toList
    ++ ", ".toList
    ++ json_quote "platforms".toList ++ ": [".toList ++ json_quote p.str ++ "]".toList
    ++ ", ".toList
    ++ json_quote "url".toList ++ ": ".toList
    ++ json_quote "https://github.com/wbond/package_control/issues".toList
    ++ ", ".toList
    ++ json_quote "description".toList ++ ": ".toList
    ++ json_quote "Package Control dependency loader".toList
    ++ "\x7d".toList

/-- UTF-8 encoding; every string encoded by this module is ASCII, for which
the byte sequence is the codepoint sequence. -/
def utf8 (s : List Char) : List Nat := s.map Char.toNat

/-- Bytes of `loader_metadata_enc = json.dumps(loader_metadata).encode('utf-8')`. -/
def loader_metadata_enc (p : Platform) : List Nat := utf8 (loader_metadata_json p)

/-- Name of the reserved metadata entry. -/
def dependency_metadata_json_name : List Char := "dependency-metadata.json".toList

/-! ## exists (archive layout, loader.py lines 88-123) -/

/-- Embedding of `exists(name)`, Python 3 branch.  Returns the boolean
result together with the resulting state (the cache may be populated).
If the live archive path does not exist the function returns `False`
before acquiring the lock (line 88); otherwise, when the cache is unset it
is filled from the staged replacement if that file exists, else from the
live archive (lines 105-114), and the cached name list is scanned
(lines 116-119). -/
def exists3 (name : List Char) (s : LoaderState) : Bool × LoaderState :=
  match s.live with
  | none => (false, s)
  | some liveEntries =>
    let cached : List (List Char) :=
      match s.loaders with
      | some ls => ls
      | none =>
        match s.staged with
        | some st => st.map Prod.fst
        | none => liveEntries.map Prod.fst
    let s' := { s with loaders := some cached }
    (cached.any (fun f => re_match_loader name f), s')

/-! ## add (loader.py lines 126-207)

The archive the write targets is the staged replacement while a swap is
queued, else the live archive (lines 187-190); it is opened in append mode
when the file exists, else in write (create) mode (line 192).  The
zipimport cache invalidation (lines 178-179), the in-process re-execution
of the new loader (lines 203-207) and the one-time old-layout cleanup
(lines 209-248) touch only host state outside this model; the first two
are recorded as flags. -/

/-- Archive selected by `add` for writing (loader.py lines 187-190). -/
def package_to_update (s : LoaderState) : Option (List Entry) :=
  if s.swap_queued = false then s.live else s.staged

/-- Result of `add`, archive layout. -/
structure AddOutcome where
  state : LoaderState
  just_created : Bool
  reexecuted : Bool
deriving Repr, DecidableEq

/-- Embedding of `add(priority, name, code)`, Python 3 branch, with the
loader code already encoded to bytes. -/
def add3 (priority name : List Char) (codeBytes : List Nat) (p : Platform)
    (s : LoaderState) : AddOutcome :=
  let fn := loader_filename priority name
  let written : List Entry × Bool :=
    match package_to_update s with
    | some contents => (contents ++ [(fn, codeBytes)], false)
    | none => ([(dependency_metadata_json_name, loader_metadata_enc p), (fn, codeBytes)], true)
  let s' :=
    if s.swap_queued = false then
      { s with live := some written.1, loaders := some (written.1.map Prod.fst) }
    else
      { s with staged := some written.1, loaders := some (written.1.map Prod.fst) }
  { state := s'
    just_created := written.2
    reexecuted := !written.2 && !s.swap_queued }

/-! ## remove (loader.py lines 251-347) -/

/-- Which archive operation, if any, raises during the rewrite inside
`remove`: opening the source zip for read (lines 282 or 287), opening the
target zip for write (line 289), or the read/write of the i-th entry of
the copy loop (line 298). -/
inductive ZipError
  | noErr
  | openSource
  | openTarget
  | copyAt (i : Nat)
deriving Repr, DecidableEq

/-- The copy loop of `remove` (loader.py lines 290-298): entries matching
the pattern are skipped and set the `removed` flag, all other entries are
copied verbatim (`new_loader_z.writestr(enc_filename, old_loader_z.read(enc_filename))`).
Returns (entries written so far, removed flag, whether the copy raised).
`i` is the iteration index used by the `ZipError.copyAt` oracle; the read
only happens for entries that are not skipped. -/
def copyEntries (name : List Char) (entries : List Entry) (e : ZipError) (i : Nat) :
    List Entry × Bool × Bool :=
  match entries with
  | [] => ([], false, false)
  | entry :: rest =>
    if re_match_loader name entry.1 then
      let r := copyEntries name rest e (i + 1)
      (r.1, true, r.2.2)
    else if e = ZipError.copyAt i then
      ([], false, true)
    else
      let r := copyEntries name rest e (i + 1)
      (entry :: r.1, r.2.1, r.2.2)

/-- Result of one invocation of `remove`, archive layout.  The lock
counters record acquisitions/releases of `loader_lock` performed by this
invocation itself (the deferred `do_swap`/`do_reenable` steps run later and
are modelled separately).  `raised` records an exception propagating to the
caller; `swapScheduled` records a `sublime.set_timeout(do_swap, 700)` call;
`oldClosed`/`newClosed` record whether the source/target zip handles were
closed. -/
structure RemoveOutcome where
  state : LoaderState
  lockAcquires : Nat
  lockReleases : Nat
  raised : Bool
  removedFlag : Bool
  swapScheduled : Bool
  oldClosed : Bool
  newClosed : Bool
  disabledPackage : Bool
deriving Repr, DecidableEq

/-- Source archive of the rewrite inside `remove`: the staged replacement
when it exists (after being renamed to the intermediate path), else the
live archive (loader.py lines 278-287). -/
def removeSource (s : LoaderState) (liveEntries : List Entry) : List Entry :=
  match s.staged with
  | some st => st
  | none => liveEntries

/-- Embedding of `remove(name)`, Python 3 branch.

Control flow of the source: early return when the live archive is absent
(lines 259-260); `loader_lock.acquire()` (line 273); inside `try`, if the
staged replacement exists it is renamed to the intermediate path (deleting
a stale intermediate first) and opened for read, else the live archive is
opened for read (lines 278-287); the staged path is opened for write
(line 289); the copy loop runs (lines 290-298) and the cache is refreshed
from the target handle (line 300).  The `finally` (lines 302-306) closes
`old_loader_z`, closes `new_loader_z`, then deletes the intermediate file
if present; when an open failed, the corresponding name is unbound and the
`close()` call itself raises `NameError`, aborting the rest of the
`finally`.  Crucially, no branch of the `finally` releases the lock, so an
exception propagates with the lock still held.  After the `try`, if
nothing was removed and no swap is queued, the staged file is deleted, the
lock released and the function returns (lines 311-314); otherwise the
package is disabled (lines 316-317), and if no swap is queued yet,
`do_swap` is scheduled and `swap_queued` is set (lines 331-345); finally
the lock is released (line 347). -/
def remove3 (name : List Char) (e : ZipError) (s : LoaderState) : RemoveOutcome :=
  match s.live with
  | none =>
    { state := s, lockAcquires := 0, lockReleases := 0, raised := false,
      removedFlag := false, swapScheduled := false, oldClosed := false,
      newClosed := false, disabledPackage := false }
  | some liveEntries =>
    let sourceEntries : List Entry := removeSource s liveEntries
    let s1 : LoaderState :=
      match s.staged with
      | some st => { s with intermediate := some st, staged := none }
      | none => s
    if e = ZipError.openSource then
      { state := s1, lockAcquires := 1, lockReleases := 0, raised := true,
        removedFlag := false, swapScheduled := false, oldClosed := false,
        newClosed := false, disabledPackage := false }
    else if e = ZipError.openTarget then
      { state := s1, lockAcquires := 1, lockReleases := 0, raised := true,
        removedFlag := false, swapScheduled := false, oldClosed := true,
        newClosed := false, disabledPackage := false }
    else
      let r := copyEntries name sourceEntries e 0
      let s2 : LoaderState := { s1 with staged := some r.1 }
      if r.2.2 then
        { state := { s2 with intermediate := none }, lockAcquires := 1,
          lockReleases := 0, raised := true, removedFlag := r.2.1,
          swapScheduled := false, oldClosed := true, newClosed := true,
          disabledPackage := false }
      else
        let s3 : LoaderState :=
          { s2 with loaders := some (r.1.map Prod.fst), intermediate := none }
        if r.2.1 = false && s3.swap_queued = false then
          { state := { s3 with staged := none }, lockAcquires := 1,
            lockReleases := 1, raised := false, removedFlag := false,
            swapScheduled := false, oldClosed := true, newClosed := true,
            disabledPackage := false }
        else if s3.swap_queued = false then
          { state := { s3 with swap_queued := true }, lockAcquires := 1,
            lockReleases := 1, raised := false, removedFlag := r.2.1,
            swapScheduled := true, oldClosed := true, newClosed := true,
            disabledPackage := true }
        else
          { state := s3, lockAcquires := 1, lockReleases := 1, raised := false,
            removedFlag := r.2.1, swapScheduled := false, oldClosed := true,
            newClosed := true, disabledPackage := true }

/-- Result of one deferred scheduler step. -/
structure StepOutcome where
  state : LoaderState
  lockAcquires : Nat
  lockReleases : Nat
  scheduledReenable : Bool
  reenabledPackage : Bool
deriving Repr, DecidableEq

/-- Embedding of the deferred `do_swap` callback (loader.py lines 332-344):
acquires the lock, deletes the live archive, renames the staged replacement
into its place, schedules `do_reenable` after 10ms and returns WITHOUT
releasing the lock (the release happens inside `do_reenable`). -/
def do_swap (s : LoaderState) : StepOutcome :=
  { state := { s with live := s.staged, staged := none }
    lockAcquires := 1, lockReleases := 0, scheduledReenable := true,
    reenabledPackage := false }

/-- Embedding of the deferred `do_reenable` callback (loader.py
lines 338-341): re-enables the package, clears `swap_queued` and releases
the lock it did not itself acquire. -/
def do_reenable (s : LoaderState) : StepOutcome :=
  { state := { s with swap_queued := false }
    lockAcquires := 0, lockReleases := 1, scheduledReenable := false,
    reenabledPackage := true }

/-- The archive a reader consulting the freshest intended state would see:
the staged replacement when present, else the live archive. -/
def currentArchive (s : LoaderState) : Option (List Entry) :=
  match s.staged with
  | some st => some st
  | none => s.live

/-! ## Directory layout (Python 2 branch) -/

/-- Writing a file into the loader directory: overwrite the existing file
of the same name, else append. -/
def writeFile (files : List Entry) (fn : List Char) (bs : List Nat) : List Entry :=
  if files.any (fun f => f.1 == fn) then
    files.map (fun f => if f.1 == fn then (fn, bs) else f)
  else
    files ++ [(fn, bs)]

/-- Embedding of `exists(name)`, Python 2 branch (loader.py lines 93-97):
list the directory and match each filename. -/
def exists2 (name : List Char) (dir : Option (List Entry)) : Bool :=
  match dir with
  | none => false
  | some files => files.any (fun f => re_match_loader name f.1)

/-- Embedding of `add`, Python 2 branch (loader.py lines 164-173): create
the directory and the metadata file on first use, then write the loader
file. -/
def add2 (priority name : List Char) (codeBytes : List Nat) (p : Platform)
    (dir : Option (List Entry)) : List Entry :=
  let fn := loader_filename priority name
  match dir with
  | none =>
    writeFile [(dependency_metadata_json_name, loader_metadata_enc p)] fn codeBytes
  | some files => writeFile files fn codeBytes

/-- Embedding of `remove`, Python 2 branch (loader.py lines 264-268):
delete every matching file; no-op when the directory is absent
(lines 259-260). -/
def remove2 (name : List Char) (dir : Option (List Entry)) : Option (List Entry) :=
  match dir with
  | none => none
  | some files => some (files.filter (fun f => !re_match_loader name f.1))

/-! ## Characterization lemmas -/

theorem copyEntries_noErr (name : List Char) (l : List Entry) (i : Nat) :
    copyEntries name l ZipError.noErr i =
      (l.filter (fun en => !re_match_loader name en.1),
       l.any (fun en => re_match_loader name en.1), false) := by
  induction l generalizing i with
  | nil => rfl
  | cons entry rest ih =>
    by_cases h : re_match_loader name entry.1 = true
    · simp [copyEntries, h, ih]
    · have h' : re_match_loader name entry.1 = false := by simpa using h
      simp [copyEntries, h', ih]

/-- The metadata entry name never matches a loader pattern: its first
character is not a digit. -/
theorem re_match_metadata (name : List Char) :
    re_match_loader name dependency_metadata_json_name = false := by
  rfl

/-- Outcome of `remove` in the no-op branch (loader.py lines 311-314):
the live archive is present, nothing matches in the rewrite source and no
swap is queued.  The freshly written staged file is deleted again and the
lock is released exactly once. -/
theorem remove3_noop (name : List Char) (s : LoaderState) (L : List Entry)
    (hlive : s.live = some L) (hq : s.swap_queued = false)
    (hrem : (removeSource s L).any (fun en => re_match_loader name en.1) = false) :
    remove3 name ZipError.noErr s =
      { state :=
          { s with
            staged := none
            intermediate := none
            loaders := some (((removeSource s L).filter
              (fun en => !re_match_loader name en.1)).map Prod.fst) }
        lockAcquires := 1
        lockReleases := 1
        raised := false
        removedFlag := false
        swapScheduled := false
        oldClosed := true
        newClosed := true
        disabledPackage := false } := by
  obtain ⟨live, staged, intermediate, loaders, swapq⟩ := s
  simp only at hlive hq
  subst hlive
  subst hq
  cases staged with
  | none =>
    simp only [removeSource] at hrem ⊢
    simp [remove3, removeSource, copyEntries_noErr, hrem]
  | some st =>
    simp only [removeSource] at hrem ⊢
    simp [remove3, removeSource, copyEntries_noErr, hrem]

/-- Outcome of `remove` when it deletes at least one entry and no swap is
queued yet (loader.py lines 316-347 with the scheduling branch taken). -/
theorem remove3_schedule (name : List Char) (s : LoaderState) (L : List Entry)
    (hlive : s.live = some L) (hq : s.swap_queued = false)
    (hrem : (removeSource s L).any (fun en => re_match_loader name en.1) = true) :
    remove3 name ZipError.noErr s =
      { state :=
          { s with
            staged := some ((removeSource s L).filter
              (fun en => !re_match_loader name en.1))
            intermediate := none
            loaders := some (((removeSource s L).filter
              (fun en => !re_match_loader name en.1)).map Prod.fst)
            swap_queued := true }
        lockAcquires := 1
        lockReleases := 1
        raised := false
        removedFlag := true
        swapScheduled := true
        oldClosed := true
        newClosed := true
        disabledPackage := true } := by
  obtain ⟨live, staged, intermediate, loaders, swapq⟩ := s
  simp only at hlive hq
  subst hlive
  subst hq
  cases staged with
  | none =>
    simp only [removeSource] at hrem ⊢
    simp [remove3, removeSource, copyEntries_noErr, hrem]
  | some st =>
    simp only [removeSource] at hrem ⊢
    simp [remove3, removeSource, copyEntries_noErr, hrem]

/-- Outcome of `remove` while a swap is already queued (loader.py: the
scheduling branch at line 331 is skipped, the rewrite result stays staged). -/
theorem remove3_queued (name : List Char) (s : LoaderState) (L : List Entry)
    (hlive : s.live = some L) (hq : s.swap_queued = true) :
    remove3 name ZipError.noErr s =
      { state :=
          { s with
            staged := some ((removeSource s L).filter
              (fun en => !re_match_loader name en.1))
            intermediate := none
            loaders := some (((removeSource s L).filter
              (fun en => !re_match_loader name en.1)).map Prod.fst) }
        lockAcquires := 1
        lockReleases := 1
        raised := false
        removedFlag := (removeSource s L).any (fun en => re_match_loader name en.1)
        swapScheduled := false
        oldClosed := true
        newClosed := true
        disabledPackage := true } := by
  obtain ⟨live, staged, intermediate, loaders, swapq⟩ := s
  simp only at hlive hq
  subst hlive
  subst hq
  cases staged with
  | none =>
    simp [remove3, removeSource, copyEntries_noErr]
  | some st =>
    simp [remove3, removeSource, copyEntries_noErr]

/-- The lookup result of `exists` when the live archive is present and the
cache holds `ls`. -/
theorem exists3_cached (name : List Char) (s : LoaderState) (L : List Entry)
    (ls : List (List Char)) (hlive : s.live = some L) (hld : s.loaders = some ls) :
    (exists3 name s).1 = ls.any (fun f => re_match_loader name f) := by
  simp [exists3, hlive, hld]

/-- The lookup result of `exists` when the live archive is absent. -/
theorem exists3_no_live (name : List Char) (s : LoaderState) (hlive : s.live = none) :
    exists3 name s = (false, s) := by
  simp [exists3, hlive]

theorem any_filter_not {α : Type} (l : List α) (p : α → Bool) :
    (l.filter (fun x => !p x)).any p = false := by
  rw [List.any_eq_false]
  intro x hx
  have := (List.mem_filter.mp hx).2
  simpa using this

theorem any_map_fst_filter (l : List Entry) (p : List Char → Bool) :
    ((l.filter (fun en => !p en.1)).map Prod.fst).any p = false := by
  rw [List.any_eq_false]
  intro x hx
  obtain ⟨en, hen, hfst⟩ := List.mem_map.mp hx
  have := (List.mem_filter.mp hen).2
  rw [← hfst]
  simpa using this

theorem writeFile_mem_name (files : List Entry) (fn : List Char) (bs : List Nat) :
    ∃ en ∈ writeFile files fn bs, en.1 = fn := by
  unfold writeFile
  by_cases h : files.any (fun f => f.1 == fn) = true
  · rw [if_pos h]
    obtain ⟨f0, hf0, hbeq⟩ := List.any_eq_true.mp h
    refine ⟨(fn, bs), List.mem_map.mpr ⟨f0, hf0, ?_⟩, rfl⟩
    simp [hbeq]
  · rw [if_neg h]
    exact ⟨(fn, bs), List.mem_append_right _ (List.mem_singleton.mpr rfl), rfl⟩

/-- Unfolding of `add` when no swap is queued and the live archive exists:
append mode on the live archive. -/
theorem add3_live_some (priority n : List Char) (code : List Nat) (plat : Platform)
    (s : LoaderState) (C : List Entry)
    (hq : s.swap_queued = false) (hl : s.live = some C) :
    add3 priority n code plat s =
      { state :=
          { s with
            live := some (C ++ [(loader_filename priority n, code)])
            loaders := some ((C ++ [(loader_filename priority n, code)]).map Prod.fst) }
        just_created := false
        reexecuted := true } := by
  obtain ⟨live, staged, intermediate, loaders, swapq⟩ := s
  simp only at hq hl
  subst hq
  subst hl
  simp [add3, package_to_update]

/-- Unfolding of `add` when no swap is queued and the live archive is
absent: create mode, the metadata entry is written first. -/
theorem add3_live_none (priority n : List Char) (code : List Nat) (plat : Platform)
    (s : LoaderState)
    (hq : s.swap_queued = false) (hl : s.live = none) :
    add3 priority n code plat s =
      { state :=
          { s with
            live := some [(dependency_metadata_json_name, loader_metadata_enc plat),
                          (loader_filename priority n, code)]
            loaders := some [dependency_metadata_json_name, loader_filename priority n] }
        just_created := true
        reexecuted := false } := by
  obtain ⟨live, staged, intermediate, loaders, swapq⟩ := s
  simp only at hq hl
  subst hq
  subst hl
  simp [add3, package_to_update]

/-- Unfolding of `add` while a swap is queued and the staged replacement
exists: append mode on the staged replacement. -/
theorem add3_staged_some (priority n : List Char) (code : List Nat) (plat : Platform)
    (s : LoaderState) (C : List Entry)
    (hq : s.swap_queued = true) (hl : s.staged = some C) :
    add3 priority n code plat s =
      { state :=
          { s with
            staged := some (C ++ [(loader_filename priority n, code)])
            loaders := some ((C ++ [(loader_filename priority n, code)]).map Prod.fst) }
        just_created := false
        reexecuted := false } := by
  obtain ⟨live, staged, intermediate, loaders, swapq⟩ := s
  simp only at hq hl
  subst hq
  subst hl
  simp [add3, package_to_update]

/-- Unfolding of `add` while a swap is queued and the staged replacement is
absent: create mode on the staged path. -/
theorem add3_staged_none (priority n : List Char) (code : List Nat) (plat : Platform)
    (s : LoaderState)
    (hq : s.swap_queued = true) (hl : s.staged = none) :
    add3 priority n code plat s =
      { state :=
          { s with
            staged := some [(dependency_metadata_json_name, loader_metadata_enc plat),
                            (loader_filename priority n, code)]
            loaders := some [dependency_metadata_json_name, loader_filename priority n] }
        just_created := true
        reexecuted := false } := by
  obtain ⟨live, staged, intermediate, loaders, swapq⟩ := s
  simp only at hq hl
  subst hq
  subst hl
  simp [add3, package_to_update]

/-- Whenever the rewrite inside `remove` gets past opening both zip
handles, the `finally` closes both of them, raising or not. -/
theorem remove3_closes (name : List Char) (e : ZipError) (s : LoaderState) (L : List Entry)
    (hlive : s.live = some L) (h1 : e ≠ ZipError.openSource) (h2 : e ≠ ZipError.openTarget) :
    (remove3 name e s).oldClosed = true ∧ (remove3 name e s).newClosed = true := by
  obtain ⟨live, staged, intermediate, loaders, swapq⟩ := s
  simp only at hlive
  subst hlive
  refine ⟨?_, ?_⟩ <;>
    (cases staged <;>
      (simp only [remove3, if_neg h1, if_neg h2]
       repeat' first | rfl | split))

/-- The archive entry name written by `add` never equals the metadata entry
name: the former ends in `y`, the latter in `n`. -/
theorem loader_filename_ne_metadata (priority n : List Char) :
    (loader_filename priority n == dependency_metadata_json_name) = false := by
  rw [beq_eq_false_iff_ne]
  intro h
  have hlast := congrArg List.getLast? h
  have hL : (loader_filename priority n).getLast? = some 'y' := by
    have : loader_filename priority n = (priority ++ '-' :: n ++ ['.', 'p']) ++ ['y'] := by
      simp [loader_filename]
    rw [this, getLast?_append_singleton]
  have hR : dependency_metadata_json_name.getLast? = some 'n' := by decide
  rw [hL, hR] at hlast
  simp at hlast

/-- The file `exists` populates the cache from when the cache is unset:
the staged replacement when it exists, else the live archive (loader.py
lines 105-114). -/
def cacheSource (s : LoaderState) (liveEntries : List Entry) : List Entry :=
  match s.staged with
  | some st => st
  | none => liveEntries

/-! ## Concrete fixtures used by witnesses and counterexamples -/

def fooName : List Char := ['f', 'o', 'o']

def barName : List Char := ['b', 'a', 'r']

def fooEntry : Entry := (['0', '1', '-', 'f', 'o', 'o', '.', 'p', 'y'], [])

def barEntry : Entry := (['1', '0', '-', 'b', 'a', 'r', '.', 'p', 'y'], [])

/-- A live archive holding one loader for `foo`, cold cache, no swap. -/
def sampleState : LoaderState :=
  { live := some [fooEntry], staged := none, intermediate := none,
    loaders := none, swap_queued := false }

/-- Only the staged replacement exists (the window inside `do_swap` between
the delete and the rename, observed by the unlocked check at line 88). -/
def stagedOnlyState : LoaderState :=
  { live := none, staged := some [fooEntry], intermediate := none,
    loaders := none, swap_queued := true }

/-- Both the live archive and a staged replacement exist, cold cache. -/
def bothState : LoaderState :=
  { live := some [barEntry], staged := some [fooEntry], intermediate := none,
    loaders := none, swap_queued := true }

/-- A live archive holding loaders for `bar` and `foo`, cold cache, no
swap.  Removing `foo` copies the `bar` entry, so the copy loop's first
read happens at iteration index 0. -/
def mixedState : LoaderState :=
  { live := some [barEntry, fooEntry], staged := none, intermediate := none,
    loaders := none, swap_queued := false }

/-! ## Claim C1 -/

/-- C1: the claim states that every invocation of `remove` (archive layout)
that acquires the mutual-exclusion lock releases it exactly once on every
exit path, including paths where opening, reading, or writing an archive
raises.  The code contradicts this: when `zipfile.ZipFile(loader_package_path, 'r')`
raises (e.g. a corrupt archive), the `try/finally` at lines 275-306 closes
the zip handles but never releases `loader_lock`, so the exception
propagates with the lock held and zero releases.  The last conjunct shows
the lock IS released exactly once on the normal exit paths, isolating the
divergence to the error path. -/
theorem claim1_lock_leak_on_archive_error :
    (remove3 fooName ZipError.openSource mixedState).raised = true ∧
    (remove3 fooName ZipError.openSource mixedState).lockAcquires = 1 ∧
    (remove3 fooName ZipError.openSource mixedState).lockReleases = 0 ∧
    (remove3 fooName (ZipError.copyAt 0) mixedState).raised = true ∧
    (remove3 fooName (ZipError.copyAt 0) mixedState).lockReleases = 0 ∧
    (remove3 fooName ZipError.noErr mixedState).lockAcquires = 1 ∧
    (remove3 fooName ZipError.noErr mixedState).lockReleases = 1 := by
  decide

/-! ## Claim C2 -/

/-- C2 counterexample: with the entry cache unset and only the staged
replacement existing (live archive absent — the claim's "(or only it)"
case), `exists` returns false at line 88 without populating the cache at
all, instead of populating it from the staged replacement. -/
theorem claim2_cache_counterexample :
    stagedOnlyState.loaders = none ∧
    stagedOnlyState.staged = some [fooEntry] ∧
    stagedOnlyState.live = none ∧
    (exists3 fooName stagedOnlyState).2.loaders ≠ some ([fooEntry].map Prod.fst) ∧
    (exists3 fooName stagedOnlyState).2.loaders = none ∧
    (exists3 fooName stagedOnlyState).1 = false := by
  decide

/-- C2 (amended): for every call to `exists` (archive layout) made while
the entry cache is unset AND the live archive file exists, the cache is
populated by reading the staged replacement if it exists, else the live
archive (preferring the staged replacement when both exist); when the live
archive does not exist, `exists` returns false without populating the
cache (see the counterexample). -/
theorem claim2_cache_population (name : List Char) (s : LoaderState) (L : List Entry)
    (hcache : s.loaders = none) (hlive : s.live = some L) :
    (exists3 name s).2.loaders = some ((cacheSource s L).map Prod.fst) ∧
    (exists3 name s).1 =
      ((cacheSource s L).map Prod.fst).any (fun f => re_match_loader name f) := by
  obtain ⟨live, staged, intermediate, loaders, swapq⟩ := s
  simp only at hcache hlive
  subst hcache
  subst hlive
  cases staged <;> simp [exists3, cacheSource]

/-- Witness for the amended C2 at a state where both files exist: the cache
is populated from the staged replacement. -/
theorem claim2_cache_population_witness :
    bothState.loaders = none ∧ bothState.live = some [barEntry] ∧
    ((exists3 fooName bothState).2.loaders =
       some ((cacheSource bothState [barEntry]).map Prod.fst) ∧
     (exists3 fooName bothState).1 =
       ((cacheSource bothState [barEntry]).map Prod.fst).any
         (fun f => re_match_loader fooName f)) :=
  ⟨rfl, rfl, claim2_cache_population fooName bothState [barEntry] rfl rfl⟩

/-! ## Claim C7 -/

/-- C7 counterexample: the claim states the lock is never held across a
scheduled deferred-callback delay and that each deferred step reacquires
the lock itself.  In the code, `do_swap` (scheduled by `remove`) acquires
the lock at line 333, deletes and renames, schedules `do_reenable` with a
10ms delay and returns WITHOUT releasing: its acquire/release counts are
1/0, so the lock stays held across the second delay; and `do_reenable`
acquires nothing (count 0) — it merely releases the lock `do_swap` left
held. -/
theorem claim7_lock_across_delay_counterexample :
    (remove3 fooName ZipError.noErr sampleState).swapScheduled = true ∧
    (do_swap (remove3 fooName ZipError.noErr sampleState).state).scheduledReenable = true ∧
    (do_swap (remove3 fooName ZipError.noErr sampleState).state).lockAcquires = 1 ∧
    (do_swap (remove3 fooName ZipError.noErr sampleState).state).lockReleases = 0 ∧
    (do_reenable (do_swap (remove3 fooName ZipError.noErr sampleState).state).state).lockAcquires
      = 0 := by
  decide

/-- C7 (amended): the lock is not held across the first scheduled delay
(the 700ms between `remove` and `do_swap`): `remove` balances its
acquisitions and releases before returning, and `do_swap` reacquires the
lock itself.  But the lock IS held across the second (10ms) delay:
`do_swap` returns holding it and `do_reenable` releases it without
reacquiring; after `do_reenable` runs, the net lock balance is zero and the
swap-queued flag is cleared. -/
theorem claim7_lock_schedule (n : List Char) (s : LoaderState) (L : List Entry)
    (hq : s.swap_queued = false) (hlive : s.live = some L)
    (hrem : (removeSource s L).any (fun en => re_match_loader n en.1) = true) :
    (remove3 n ZipError.noErr s).swapScheduled = true ∧
    (remove3 n ZipError.noErr s).lockAcquires = (remove3 n ZipError.noErr s).lockReleases ∧
    (do_swap (remove3 n ZipError.noErr s).state).lockAcquires = 1 ∧
    (do_swap (remove3 n ZipError.noErr s).state).lockReleases = 0 ∧
    (do_reenable (do_swap (remove3 n ZipError.noErr s).state).state).lockAcquires = 0 ∧
    (do_reenable (do_swap (remove3 n ZipError.noErr s).state).state).lockReleases = 1 ∧
    (do_reenable (do_swap (remove3 n ZipError.noErr s).state).state).state.swap_queued
      = false := by
  rw [remove3_schedule n s L hlive hq hrem]
  simp [do_swap, do_reenable]

/-- Witness for the amended C7 at the sample state. -/
theorem claim7_lock_schedule_witness :
    sampleState.swap_queued = false ∧
    sampleState.live = some [fooEntry] ∧
    (removeSource sampleState [fooEntry]).any
      (fun en => re_match_loader fooName en.1) = true ∧
    ((remove3 fooName ZipError.noErr sampleState).swapScheduled = true ∧
     (remove3 fooName ZipError.noErr sampleState).lockAcquires
       = (remove3 fooName ZipError.noErr sampleState).lockReleases ∧
     (do_swap (remove3 fooName ZipError.noErr sampleState).state).lockAcquires = 1 ∧
     (do_swap (remove3 fooName ZipError.noErr sampleState).state).lockReleases = 0 ∧
     (do_reenable (do_swap (remove3 fooName ZipError.noErr sampleState).state).state).lockAcquires
       = 0 ∧
     (do_reenable (do_swap (remove3 fooName ZipError.noErr sampleState).state).state).lockReleases
       = 1 ∧
     (do_reenable (do_swap (remove3 fooName ZipError.noErr sampleState).state).state).state.swap_queued
       = false) :=
  ⟨rfl, rfl, by decide,
   claim7_lock_schedule fooName sampleState [fooEntry] rfl rfl (by decide)⟩

/-! ## Claim C3 -/

/-- C3: for dependency names n1 ≠ n2, `remove(n1)` never deletes an archive
entry named for n2 — the entry survives into the archive holding the
freshest intended state — because the dependency name is fully escaped
(`re.escape`) as an opaque literal in the pattern `re_match_loader` shared
by `exists` and `remove`, so the pattern for n1 cannot match an entry
named for n2.  The tidy-state hypothesis (a staged file only exists while
a swap is queued) is the invariant every normal execution maintains. -/
theorem claim3_no_cross_removal (n1 n2 fn : List Char) (payload : List Nat)
    (s : LoaderState) (L : List Entry)
    (hne : n1 ≠ n2) (hnamed : namedFor n2 fn)
    (hlive : s.live = some L) (htidy : s.staged = none ∨ s.swap_queued = true)
    (hmem : (fn, payload) ∈ removeSource s L) :
    re_match_loader n1 fn = false ∧
    ∃ arr, currentArchive (remove3 n1 ZipError.noErr s).state = some arr ∧
      (fn, payload) ∈ arr := by
  have hfalse := re_match_loader_ne hne hnamed
  refine ⟨hfalse, ?_⟩
  by_cases hq : s.swap_queued = true
  · rw [remove3_queued n1 s L hlive hq]
    refine ⟨(removeSource s L).filter (fun en => !re_match_loader n1 en.1), rfl, ?_⟩
    exact List.mem_filter.mpr ⟨hmem, by simp [hfalse]⟩
  · have hq' : s.swap_queued = false := by simpa using hq
    have hst : s.staged = none := by
      cases htidy with
      | inl h => exact h
      | inr h => exact absurd h hq
    by_cases hany : (removeSource s L).any (fun en => re_match_loader n1 en.1) = true
    · rw [remove3_schedule n1 s L hlive hq' hany]
      refine ⟨(removeSource s L).filter (fun en => !re_match_loader n1 en.1), rfl, ?_⟩
      exact List.mem_filter.mpr ⟨hmem, by simp [hfalse]⟩
    · have hany' : (removeSource s L).any (fun en => re_match_loader n1 en.1) = false := by
        simpa using hany
      rw [remove3_noop n1 s L hlive hq' hany']
      refine ⟨L, ?_, ?_⟩
      · simp [currentArchive, hlive]
      · simpa [removeSource, hst] using hmem

/-- A live archive holding only the loader for `bar`, cold cache, no swap. -/
def barOnlyState : LoaderState :=
  { live := some [barEntry], staged := none, intermediate := none,
    loaders := none, swap_queued := false }

/-- Witness for C3: removing `foo` leaves the `bar` entry in place. -/
theorem claim3_no_cross_removal_witness :
    fooName ≠ barName ∧ namedFor barName barEntry.1 ∧
    barOnlyState.live = some [barEntry] ∧
    (barOnlyState.staged = none ∨ barOnlyState.swap_queued = true) ∧
    (barEntry.1, ([] : List Nat)) ∈ removeSource barOnlyState [barEntry] ∧
    (re_match_loader fooName barEntry.1 = false ∧
     ∃ arr, currentArchive (remove3 fooName ZipError.noErr barOnlyState).state = some arr ∧
       (barEntry.1, ([] : List Nat)) ∈ arr) :=
  ⟨by decide, ⟨'1', '0', by decide, by decide, Or.inl (by decide)⟩, rfl, Or.inl rfl,
   by decide,
   claim3_no_cross_removal fooName barName barEntry.1 [] barOnlyState [barEntry]
     (by decide) ⟨'1', '0', by decide, by decide, Or.inl (by decide)⟩ rfl
     (Or.inl rfl) (by decide)⟩

/-! ## Claim C4 -/

/-- C4: for every two-digit priority and every name, `add` then `exists`
returns true, and `remove` then `exists` returns false, in both the
directory layout (Python 2 branch) and the archive layout (Python 3
branch).  The archive-layout `add` direction needs the reachability
invariant that the live archive exists whenever a swap is queued (a queued
swap was staged by a `remove` that saw the live archive). -/
theorem claim4_add_remove_exists (a b : Char) (n : List Char) (code : List Nat)
    (plat : Platform) (dir : Option (List Entry)) (s : LoaderState)
    (ha : a.isDigit = true) (hb : b.isDigit = true)
    (hinv : s.swap_queued = true → s.live.isSome = true) :
    exists2 n (some (add2 [a, b] n code plat dir)) = true ∧
    exists2 n (remove2 n dir) = false ∧
    (exists3 n (add3 [a, b] n code plat s).state).1 = true ∧
    (exists3 n (remove3 n ZipError.noErr s).state).1 = false := by
  have hself := re_match_loader_self ha hb n
  refine ⟨?_, ?_, ?_, ?_⟩
  · -- directory layout, add then exists
    cases dir with
    | none =>
      obtain ⟨en, hen, hfn⟩ := writeFile_mem_name
        [(dependency_metadata_json_name, loader_metadata_enc plat)]
        (loader_filename [a, b] n) code
      exact List.any_eq_true.mpr ⟨en, hen, by rw [hfn]; exact hself⟩
    | some files =>
      obtain ⟨en, hen, hfn⟩ := writeFile_mem_name files (loader_filename [a, b] n) code
      exact List.any_eq_true.mpr ⟨en, hen, by rw [hfn]; exact hself⟩
  · -- directory layout, remove then exists
    cases dir with
    | none => rfl
    | some files => exact any_filter_not files (fun f => re_match_loader n f.1)
  · -- archive layout, add then exists
    by_cases hq : s.swap_queued = true
    · obtain ⟨L', hL'⟩ := Option.isSome_iff_exists.mp (hinv hq)
      cases hst : s.staged with
      | none =>
        rw [add3_staged_none [a, b] n code plat s hq hst]
        rw [exists3_cached n _ L' [dependency_metadata_json_name, loader_filename [a, b] n]
          (by simpa using hL') rfl]
        simp [hself]
      | some C =>
        rw [add3_staged_some [a, b] n code plat s C hq hst]
        rw [exists3_cached n _ L' ((C ++ [(loader_filename [a, b] n, code)]).map Prod.fst)
          (by simpa using hL') rfl]
        refine List.any_eq_true.mpr ⟨loader_filename [a, b] n, ?_, hself⟩
        exact List.mem_map.mpr ⟨(loader_filename [a, b] n, code),
          List.mem_append_right _ (List.mem_singleton.mpr rfl), rfl⟩
    · have hq' : s.swap_queued = false := by simpa using hq
      cases hl : s.live with
      | none =>
        rw [add3_live_none [a, b] n code plat s hq' hl]
        rw [exists3_cached n _
          [(dependency_metadata_json_name, loader_metadata_enc plat),
           (loader_filename [a, b] n, code)]
          [dependency_metadata_json_name, loader_filename [a, b] n] rfl rfl]
        simp [hself]
      | some C =>
        rw [add3_live_some [a, b] n code plat s C hq' hl]
        rw [exists3_cached n _ (C ++ [(loader_filename [a, b] n, code)])
          ((C ++ [(loader_filename [a, b] n, code)]).map Prod.fst) rfl rfl]
        refine List.any_eq_true.mpr ⟨loader_filename [a, b] n, ?_, hself⟩
        exact List.mem_map.mpr ⟨(loader_filename [a, b] n, code),
          List.mem_append_right _ (List.mem_singleton.mpr rfl), rfl⟩
  · -- archive layout, remove then exists
    cases hl : s.live with
    | none =>
      have hrm : remove3 n ZipError.noErr s =
          { state := s, lockAcquires := 0, lockReleases := 0, raised := false,
            removedFlag := false, swapScheduled := false, oldClosed := false,
            newClosed := false, disabledPackage := false } := by
        obtain ⟨live, staged, inter, loaders, swapq⟩ := s
        simp only at hl
        subst hl
        rfl
      rw [hrm]
      rw [exists3_no_live n s hl]
    | some L =>
      by_cases hq : s.swap_queued = true
      · rw [remove3_queued n s L hl hq]
        rw [exists3_cached n _ L
          (((removeSource s L).filter (fun en => !re_match_loader n en.1)).map Prod.fst)
          (by simpa using hl) rfl]
        exact any_map_fst_filter _ _
      · have hq' : s.swap_queued = false := by simpa using hq
        by_cases hany : (removeSource s L).any (fun en => re_match_loader n en.1) = true
        · rw [remove3_schedule n s L hl hq' hany]
          rw [exists3_cached n _ L
            (((removeSource s L).filter (fun en => !re_match_loader n en.1)).map Prod.fst)
            (by simpa using hl) rfl]
          exact any_map_fst_filter _ _
        · have hany' : (removeSource s L).any (fun en => re_match_loader n en.1) = false := by
            simpa using hany
          rw [remove3_noop n s L hl hq' hany']
          rw [exists3_cached n _ L
            (((removeSource s L).filter (fun en => !re_match_loader n en.1)).map Prod.fst)
            (by simpa using hl) rfl]
          exact any_map_fst_filter _ _

/-- The state before the loader archive was ever created. -/
def emptyState : LoaderState :=
  { live := none, staged := none, intermediate := none,
    loaders := none, swap_queued := false }

/-- Witness for C4 with priority "01", name "foo", starting from nothing. -/
theorem claim4_add_remove_exists_witness :
    ('0' : Char).isDigit = true ∧ ('1' : Char).isDigit = true ∧
    (emptyState.swap_queued = true → emptyState.live.isSome = true) ∧
    (exists2 fooName (some (add2 ['0', '1'] fooName [] Platform.linux none)) = true ∧
     exists2 fooName (remove2 fooName none) = false ∧
     (exists3 fooName (add3 ['0', '1'] fooName [] Platform.linux emptyState).state).1 = true ∧
     (exists3 fooName (remove3 fooName ZipError.noErr emptyState).state).1 = false) :=
  ⟨by decide, by decide, by decide,
   claim4_add_remove_exists '0' '1' fooName [] Platform.linux none emptyState
     (by decide) (by decide) (by decide)⟩

/-! ## Claim C5 -/

/-- Postcondition of the no-op branch of `remove` on a tidy state holding
no loader for the given name: nothing raises, nothing is staged, no swap
is scheduled, the live archive is untouched and the package is never
disabled. -/
theorem remove3_noop_facts (n : List Char) (s : LoaderState)
    (hq : s.swap_queued = false) (hstaged : s.staged = none)
    (hclean : ∀ en ∈ s.live.getD [], re_match_loader n en.1 = false) :
    (remove3 n ZipError.noErr s).raised = false ∧
    (remove3 n ZipError.noErr s).removedFlag = false ∧
    (remove3 n ZipError.noErr s).swapScheduled = false ∧
    (remove3 n ZipError.noErr s).disabledPackage = false ∧
    (remove3 n ZipError.noErr s).state.swap_queued = false ∧
    (remove3 n ZipError.noErr s).state.staged = none ∧
    (remove3 n ZipError.noErr s).state.live = s.live := by
  obtain ⟨live, staged, inter, loaders, swapq⟩ := s
  simp only at hq hstaged hclean
  subst hq
  subst hstaged
  cases live with
  | none => simp [remove3]
  | some L =>
    have hany : L.any (fun en => re_match_loader n en.1) = false := by
      rw [List.any_eq_false]
      intro x hx
      simp [hclean x hx]
    rw [remove3_noop n ⟨some L, none, inter, loaders, false⟩ L rfl rfl
      (by simpa [removeSource] using hany)]
    simp

/-- C5: removing a name that was never added is a no-op, twice in a row:
neither call raises, stages a swap or disables the package; both calls
detect that nothing was removed (discarding the rewrite output, leaving no
staged file) and leave the live archive unchanged. -/
theorem claim5_remove_idempotent (n : List Char) (s : LoaderState)
    (hq : s.swap_queued = false) (hstaged : s.staged = none)
    (hclean : ∀ en ∈ s.live.getD [], re_match_loader n en.1 = false) :
    ((remove3 n ZipError.noErr s).raised = false ∧
     (remove3 n ZipError.noErr s).removedFlag = false ∧
     (remove3 n ZipError.noErr s).swapScheduled = false ∧
     (remove3 n ZipError.noErr s).state.swap_queued = false ∧
     (remove3 n ZipError.noErr s).state.staged = none ∧
     (remove3 n ZipError.noErr s).state.live = s.live) ∧
    ((remove3 n ZipError.noErr (remove3 n ZipError.noErr s).state).raised = false ∧
     (remove3 n ZipError.noErr (remove3 n ZipError.noErr s).state).removedFlag = false ∧
     (remove3 n ZipError.noErr (remove3 n ZipError.noErr s).state).swapScheduled = false ∧
     (remove3 n ZipError.noErr (remove3 n ZipError.noErr s).state).state.swap_queued = false ∧
     (remove3 n ZipError.noErr (remove3 n ZipError.noErr s).state).state.staged = none ∧
     (remove3 n ZipError.noErr (remove3 n ZipError.noErr s).state).state.live = s.live) := by
  obtain ⟨h1r, h1f, h1s, _, h1q, h1st, h1l⟩ := remove3_noop_facts n s hq hstaged hclean
  have hclean' : ∀ en ∈ (remove3 n ZipError.noErr s).state.live.getD [],
      re_match_loader n en.1 = false := by
    rw [h1l]
    exact hclean
  obtain ⟨h2r, h2f, h2s, _, h2q, h2st, h2l⟩ :=
    remove3_noop_facts n (remove3 n ZipError.noErr s).state h1q h1st hclean'
  exact ⟨⟨h1r, h1f, h1s, h1q, h1st, h1l⟩,
         ⟨h2r, h2f, h2s, h2q, h2st, h2l.trans h1l⟩⟩

/-- Witness for C5: removing `foo` twice from an archive that only ever
held a loader for `bar`. -/
theorem claim5_remove_idempotent_witness :
    barOnlyState.swap_queued = false ∧ barOnlyState.staged = none ∧
    (∀ en ∈ barOnlyState.live.getD [], re_match_loader fooName en.1 = false) ∧
    (((remove3 fooName ZipError.noErr barOnlyState).raised = false ∧
      (remove3 fooName ZipError.noErr barOnlyState).removedFlag = false ∧
      (remove3 fooName ZipError.noErr barOnlyState).swapScheduled = false ∧
      (remove3 fooName ZipError.noErr barOnlyState).state.swap_queued = false ∧
      (remove3 fooName ZipError.noErr barOnlyState).state.staged = none ∧
      (remove3 fooName ZipError.noErr barOnlyState).state.live = barOnlyState.live) ∧
     ((remove3 fooName ZipError.noErr (remove3 fooName ZipError.noErr barOnlyState).state).raised = false ∧
      (remove3 fooName ZipError.noErr (remove3 fooName ZipError.noErr barOnlyState).state).removedFlag = false ∧
      (remove3 fooName ZipError.noErr (remove3 fooName ZipError.noErr barOnlyState).state).swapScheduled = false ∧
      (remove3 fooName ZipError.noErr (remove3 fooName ZipError.noErr barOnlyState).state).state.swap_queued = false ∧
      (remove3 fooName ZipError.noErr (remove3 fooName ZipError.noErr barOnlyState).state).state.staged = none ∧
      (remove3 fooName ZipError.noErr (remove3 fooName ZipError.noErr barOnlyState).state).state.live = barOnlyState.live)) :=
  ⟨rfl, rfl, by decide,
   claim5_remove_idempotent fooName barOnlyState rfl rfl (by decide)⟩

/-! ## Claim C6 -/

/-- C6: a removal that deletes an entry while a previous removal's swap is
still pending schedules no second delayed rename callback
(`swapScheduled = false`), keeps the swap-queued flag, folds its deletions
into the single staged replacement file (the staged path now holds the
filtered contents of the previously staged archive) and leaves no second
auxiliary file behind (the intermediate path is cleaned up). -/
theorem claim6_single_pending_swap (n : List Char) (s : LoaderState) (st L : List Entry)
    (hq : s.swap_queued = true) (hst : s.staged = some st) (hlive : s.live = some L)
    (hdel : ∃ en ∈ st, re_match_loader n en.1 = true) :
    (remove3 n ZipError.noErr s).swapScheduled = false ∧
    (remove3 n ZipError.noErr s).removedFlag = true ∧
    (remove3 n ZipError.noErr s).raised = false ∧
    (remove3 n ZipError.noErr s).state.swap_queued = true ∧
    (remove3 n ZipError.noErr s).state.staged =
      some (st.filter (fun en => !re_match_loader n en.1)) ∧
    (remove3 n ZipError.noErr s).state.intermediate = none := by
  have hsrc : removeSource s L = st := by simp [removeSource, hst]
  have hany : (removeSource s L).any (fun en => re_match_loader n en.1) = true := by
    rw [hsrc]
    exact List.any_eq_true.mpr hdel
  rw [remove3_queued n s L hlive hq]
  refine ⟨rfl, hany, rfl, hq, ?_, rfl⟩
  show some ((removeSource s L).filter (fun en => !re_match_loader n en.1)) =
    some (st.filter (fun en => !re_match_loader n en.1))
  rw [hsrc]

/-- Witness for C6: removing `foo` while the swap staged by a previous
removal is still pending. -/
theorem claim6_single_pending_swap_witness :
    bothState.swap_queued = true ∧ bothState.staged = some [fooEntry] ∧
    bothState.live = some [barEntry] ∧
    (∃ en ∈ [fooEntry], re_match_loader fooName en.1 = true) ∧
    ((remove3 fooName ZipError.noErr bothState).swapScheduled = false ∧
     (remove3 fooName ZipError.noErr bothState).removedFlag = true ∧
     (remove3 fooName ZipError.noErr bothState).raised = false ∧
     (remove3 fooName ZipError.noErr bothState).state.swap_queued = true ∧
     (remove3 fooName ZipError.noErr bothState).state.staged =
       some ([fooEntry].filter (fun en => !re_match_loader fooName en.1)) ∧
     (remove3 fooName ZipError.noErr bothState).state.intermediate = none) :=
  ⟨rfl, rfl, rfl, by decide,
   claim6_single_pending_swap fooName bothState [fooEntry] [barEntry] rfl rfl rfl
     (by decide)⟩

/-! ## Claim C8 -/

/-- C8: the archive rewrite inside `remove` copies to the new archive
exactly the entries of the source archive whose names do not match the
removal pattern, carrying each copied entry over verbatim (same name, same
payload bytes — the first conjunct is an equality between lists of
(name, payload) pairs), records in the `removed` flag whether any entry
was skipped, and both zip handles are closed on the normal path as well as
when the copy loop raises. -/
theorem claim8_rewrite_filter (n : List Char) (s : LoaderState) (L : List Entry)
    (j : Nat) (hlive : s.live = some L) :
    copyEntries n (removeSource s L) ZipError.noErr 0 =
      ((removeSource s L).filter (fun en => !re_match_loader n en.1),
       (removeSource s L).any (fun en => re_match_loader n en.1), false) ∧
    ((remove3 n ZipError.noErr s).oldClosed = true ∧
     (remove3 n ZipError.noErr s).newClosed = true) ∧
    ((remove3 n (ZipError.copyAt j) s).oldClosed = true ∧
     (remove3 n (ZipError.copyAt j) s).newClosed = true) := by
  refine ⟨copyEntries_noErr n (removeSource s L) 0, ?_, ?_⟩
  · exact remove3_closes n ZipError.noErr s L hlive (by simp) (by simp)
  · exact remove3_closes n (ZipError.copyAt j) s L hlive (by simp) (by simp)

/-- Witness for C8 on an archive holding `bar` and `foo` entries, with the
copy error injected at iteration index 0. -/
theorem claim8_rewrite_filter_witness :
    mixedState.live = some [barEntry, fooEntry] ∧
    (copyEntries fooName (removeSource mixedState [barEntry, fooEntry]) ZipError.noErr 0 =
       ((removeSource mixedState [barEntry, fooEntry]).filter
          (fun en => !re_match_loader fooName en.1),
        (removeSource mixedState [barEntry, fooEntry]).any
          (fun en => re_match_loader fooName en.1), false) ∧
     ((remove3 fooName ZipError.noErr mixedState).oldClosed = true ∧
      (remove3 fooName ZipError.noErr mixedState).newClosed = true) ∧
     ((remove3 fooName (ZipError.copyAt 0) mixedState).oldClosed = true ∧
      (remove3 fooName (ZipError.copyAt 0) mixedState).newClosed = true)) :=
  ⟨rfl, claim8_rewrite_filter fooName mixedState [barEntry, fooEntry] 0 rfl⟩

/-! ## Claim C9 -/

/-- C9: when `add` opens the target archive in create mode (the archive
selected by `package_to_update` does not exist), it writes exactly one
metadata entry named `dependency-metadata.json` — whose JSON payload
carries version "1.0.0", the host-version-range `sublime_text: "*"`, a
platforms list containing the current platform, the issue-tracker url and
a description string — followed by the loader entry; when the target
archive already exists (append mode), the only entry written is the loader
entry, whose name differs from the metadata entry name, so no metadata
entry is written. -/
theorem claim9_metadata_entry (priority n : List Char) (code : List Nat)
    (p : Platform) (s : LoaderState) :
    ((loader_metadata p).version = "1.0.0".toList ∧
     (loader_metadata p).sublime_text = "*".toList ∧
     (loader_metadata p).platforms = [p.str] ∧
     (loader_metadata p).url = "https://github.com/wbond/package_control/issues".toList ∧
     (loader_metadata p).description = "Package Control dependency loader".toList) ∧
    (loader_filename priority n == dependency_metadata_json_name) = false ∧
    (package_to_update s = none →
      package_to_update (add3 priority n code p s).state =
        some [(dependency_metadata_json_name, loader_metadata_enc p),
              (loader_filename priority n, code)] ∧
      ((package_to_update (add3 priority n code p s).state).getD []).countP
        (fun en => en.1 == dependency_metadata_json_name) = 1) ∧
    (∀ C, package_to_update s = some C →
      package_to_update (add3 priority n code p s).state =
        some (C ++ [(loader_filename priority n, code)])) := by
  refine ⟨⟨rfl, rfl, rfl, rfl, rfl⟩, loader_filename_ne_metadata priority n, ?_, ?_⟩
  · intro hnone
    have hres : package_to_update (add3 priority n code p s).state =
        some [(dependency_metadata_json_name, loader_metadata_enc p),
              (loader_filename priority n, code)] := by
      by_cases hq : s.swap_queued = false
      · have hl : s.live = none := by
          simpa [package_to_update, hq] using hnone
        rw [add3_live_none priority n code p s hq hl]
        simp [package_to_update, hq]
      · have hq' : s.swap_queued = true := by simpa using hq
        have hl : s.staged = none := by
          simpa [package_to_update, hq'] using hnone
        rw [add3_staged_none priority n code p s hq' hl]
        simp [package_to_update, hq']
    refine ⟨hres, ?_⟩
    rw [hres]
    simp [List.countP_cons, loader_filename_ne_metadata priority n]
  · intro C hsome
    by_cases hq : s.swap_queued = false
    · have hl : s.live = some C := by
        simpa [package_to_update, hq] using hsome
      rw [add3_live_some priority n code p s C hq hl]
      simp [package_to_update, hq]
    · have hq' : s.swap_queued = true := by simpa using hq
      have hl : s.staged = some C := by
        simpa [package_to_update, hq'] using hsome
      rw [add3_staged_some priority n code p s C hq' hl]
      simp [package_to_update, hq']

/-- Witness for C9: a create-mode add starting from nothing writes the
metadata entry exactly once, and an append-mode add on an existing archive
appends only the loader entry. -/
theorem claim9_metadata_entry_witness :
    (loader_metadata Platform.linux).version = "1.0.0".toList ∧
    (loader_metadata Platform.linux).platforms = [Platform.linux.str] ∧
    package_to_update emptyState = none ∧
    package_to_update (add3 ['0', '1'] fooName [] Platform.linux emptyState).state =
      some [(dependency_metadata_json_name, loader_metadata_enc Platform.linux),
            (loader_filename ['0', '1'] fooName, [])] ∧
    ((package_to_update (add3 ['0', '1'] fooName [] Platform.linux emptyState).state).getD
      []).countP (fun en => en.1 == dependency_metadata_json_name) = 1 ∧
    package_to_update barOnlyState = some [barEntry] ∧
    package_to_update (add3 ['0', '1'] fooName [] Platform.linux barOnlyState).state =
      some ([barEntry] ++ [(loader_filename ['0', '1'] fooName, [])]) :=
  ⟨rfl, rfl, rfl,
   ((claim9_metadata_entry ['0', '1'] fooName [] Platform.linux emptyState).2.2.1 rfl).1,
   ((claim9_metadata_entry ['0', '1'] fooName [] Platform.linux emptyState).2.2.1 rfl).2,
   rfl,
   (claim9_metadata_entry ['0', '1'] fooName [] Platform.linux barOnlyState).2.2.2
     [barEntry] rfl⟩

/-! ## Claim C10 -/

theorem names_any_false (l : List Entry) (n : List Char)
    (h : ∀ en ∈ l, re_match_loader n en.1 = false) :
    (l.map Prod.fst).any (fun f => re_match_loader n f) = false := by
  rw [List.any_eq_false]
  intro f hf
  obtain ⟨en, hen, rfl⟩ := List.mem_map.mp hf
  simp [h en hen]

theorem any_pair_false {n f1 f2 : List Char}
    (h1 : re_match_loader n f1 = false) (h2 : re_match_loader n f2 = false) :
    ([f1, f2].any (fun f => re_match_loader n f)) = false := by
  simp [h1, h2]

/-- When `remove` takes the no-op branch, the live archive is untouched,
so any of its entries survives in the current archive. -/
theorem remove3_noop_keeps (n : List Char) (t : LoaderState) (X : List Entry) (e0 : Entry)
    (hlive : t.live = some X) (hq : t.swap_queued = false)
    (hclean2 : ∀ en ∈ removeSource t X, re_match_loader n en.1 = false)
    (hmem : e0 ∈ X) :
    ∃ arr, currentArchive (remove3 n ZipError.noErr t).state = some arr ∧ e0 ∈ arr := by
  have hany : (removeSource t X).any (fun en => re_match_loader n en.1) = false := by
    rw [List.any_eq_false]
    intro x hx
    simp [hclean2 x hx]
  rw [remove3_noop n t X hlive hq hany]
  exact ⟨X, by simp [currentArchive, hlive], hmem⟩

/-- When `remove` runs while a swap is queued, a non-matching entry of the
staged replacement survives into the rewritten staged replacement. -/
theorem remove3_queued_keeps (n : List Char) (t : LoaderState) (X st : List Entry)
    (e0 : Entry) (hlive : t.live = some X) (hq : t.swap_queued = true)
    (hst : t.staged = some st) (hm : re_match_loader n e0.1 = false) (hmem : e0 ∈ st) :
    ∃ arr, currentArchive (remove3 n ZipError.noErr t).state = some arr ∧ e0 ∈ arr := by
  rw [remove3_queued n t X hlive hq]
  refine ⟨(removeSource t X).filter (fun en => !re_match_loader n en.1), rfl, ?_⟩
  refine List.mem_filter.mpr ⟨?_, by simp [hm]⟩
  simpa [removeSource, hst] using hmem

set_option maxRecDepth 8192 in
/-- C10 counterexample: the original claim quantifies over every priority
string that is not exactly two ASCII digits, but the Python 3 pattern's
`\d` matches any Unicode decimal digit.  With the Arabic-Indic priority
"٣٤" (U+0663, U+0664) — in the claim's scope, since it is not two ASCII
digits — the written entry `٣٤-foo.py` DOES match the shared pattern:
`exists("foo")` returns true after the add (the claim says false), and a
subsequent `remove("foo")` deletes the entry, leaving only the metadata
entry in the staged archive (the claim says the entry is left in place). -/
theorem claim10_priority_counterexample :
    isTwoDigit ['٣', '٤'] = false ∧
    re_match_loader fooName (loader_filename ['٣', '٤'] fooName) = true ∧
    (exists3 fooName (add3 ['٣', '٤'] fooName [] Platform.linux emptyState).state).1
      = true ∧
    currentArchive
        (remove3 fooName ZipError.noErr
          (add3 ['٣', '٤'] fooName [] Platform.linux emptyState).state).state =
      some [(dependency_metadata_json_name, loader_metadata_enc Platform.linux)] := by
  decide

/-- C10 (amended): for every priority string that is not exactly two
decimal digits in the sense of the pattern's `\d` (Unicode category Nd —
a superset of the ASCII digits, see the counterexample for a non-ASCII
pair), an archive-layout `add(p, n)` succeeds — the target archive and the
refreshed cache contain an entry named `p-n.py` — but that entry matches
neither the `exists` pattern nor the `remove` pattern (they are the same
pattern, `re_match_loader`): a subsequent `exists(n)` returns false and a
subsequent `remove(n)` leaves the entry in the current archive.  The state
hypotheses say the live archive exists whenever a swap is queued, and that
no pre-existing entry of the live or staged archive matches `n`. -/
theorem claim10_bad_priority (p n : List Char) (code : List Nat) (plat : Platform)
    (s : LoaderState) (hp : isTwoPyDigit p = false)
    (hinv : s.swap_queued = true → s.live.isSome = true)
    (hclean : ∀ en ∈ s.live.getD [] ++ s.staged.getD [],
      re_match_loader n en.1 = false) :
    re_match_loader n (loader_filename p n) = false ∧
    (∃ T, package_to_update (add3 p n code plat s).state = some T ∧
      (loader_filename p n, code) ∈ T) ∧
    (∃ ns, (add3 p n code plat s).state.loaders = some ns ∧ loader_filename p n ∈ ns) ∧
    (exists3 n (add3 p n code plat s).state).1 = false ∧
    (∃ arr, currentArchive
        (remove3 n ZipError.noErr (add3 p n code plat s).state).state = some arr ∧
      (loader_filename p n, code) ∈ arr) := by
  have hm := re_match_loader_bad_priority (n := n) hp
  have hcleanL : ∀ en ∈ s.live.getD [], re_match_loader n en.1 = false :=
    fun en h => hclean en (List.mem_append_left _ h)
  have hcleanS : ∀ en ∈ s.staged.getD [], re_match_loader n en.1 = false :=
    fun en h => hclean en (List.mem_append_right _ h)
  refine ⟨hm, ?_⟩
  by_cases hq : s.swap_queued = true
  · obtain ⟨L', hL'⟩ := Option.isSome_iff_exists.mp (hinv hq)
    cases hst : s.staged with
    | some C =>
      have hC : ∀ en ∈ C, re_match_loader n en.1 = false := by
        intro en h
        apply hcleanS
        simp [hst, h]
      have hall : ∀ en ∈ C ++ [(loader_filename p n, code)],
          re_match_loader n en.1 = false := by
        intro en hen
        rcases List.mem_append.mp hen with h | h
        · exact hC en h
        · rw [List.mem_singleton.mp h]
          exact hm
      rw [add3_staged_some p n code plat s C hq hst]
      refine ⟨⟨C ++ [(loader_filename p n, code)], by simp [package_to_update, hq],
          List.mem_append_right _ (List.mem_singleton.mpr rfl)⟩, ?_, ?_, ?_⟩
      · exact ⟨(C ++ [(loader_filename p n, code)]).map Prod.fst, rfl,
          List.mem_map.mpr ⟨(loader_filename p n, code),
            List.mem_append_right _ (List.mem_singleton.mpr rfl), rfl⟩⟩
      · exact (exists3_cached n
          { s with staged := some (C ++ [(loader_filename p n, code)])
                   loaders := some ((C ++ [(loader_filename p n, code)]).map Prod.fst) }
          L' ((C ++ [(loader_filename p n, code)]).map Prod.fst) hL' rfl).trans
          (names_any_false _ n hall)
      · exact remove3_queued_keeps n _ L' (C ++ [(loader_filename p n, code)])
          (loader_filename p n, code) hL' hq rfl hm
          (List.mem_append_right _ (List.mem_singleton.mpr rfl))
    | none =>
      rw [add3_staged_none p n code plat s hq hst]
      refine ⟨⟨[(dependency_metadata_json_name, loader_metadata_enc plat),
          (loader_filename p n, code)], by simp [package_to_update, hq], by simp⟩,
          ?_, ?_, ?_⟩
      · exact ⟨[dependency_metadata_json_name, loader_filename p n], rfl, by simp⟩
      · exact (exists3_cached n
          { s with staged := some [(dependency_metadata_json_name, loader_metadata_enc plat),
                                   (loader_filename p n, code)]
                   loaders := some [dependency_metadata_json_name, loader_filename p n] }
          L' [dependency_metadata_json_name, loader_filename p n] hL' rfl).trans
          (any_pair_false (re_match_metadata n) hm)
      · exact remove3_queued_keeps n _ L'
          [(dependency_metadata_json_name, loader_metadata_enc plat),
           (loader_filename p n, code)]
          (loader_filename p n, code) hL' hq rfl hm (by simp)
  · have hq' : s.swap_queued = false := by simpa using hq
    cases hl : s.live with
    | some C =>
      have hC : ∀ en ∈ C, re_match_loader n en.1 = false := by
        intro en h
        apply hcleanL
        simp [hl, h]
      have hall : ∀ en ∈ C ++ [(loader_filename p n, code)],
          re_match_loader n en.1 = false := by
        intro en hen
        rcases List.mem_append.mp hen with h | h
        · exact hC en h
        · rw [List.mem_singleton.mp h]
          exact hm
      rw [add3_live_some p n code plat s C hq' hl]
      refine ⟨⟨C ++ [(loader_filename p n, code)], by simp [package_to_update, hq'],
          List.mem_append_right _ (List.mem_singleton.mpr rfl)⟩, ?_, ?_, ?_⟩
      · exact ⟨(C ++ [(loader_filename p n, code)]).map Prod.fst, rfl,
          List.mem_map.mpr ⟨(loader_filename p n, code),
            List.mem_append_right _ (List.mem_singleton.mpr rfl), rfl⟩⟩
      · exact (exists3_cached n
          { s with live := some (C ++ [(loader_filename p n, code)])
                   loaders := some ((C ++ [(loader_filename p n, code)]).map Prod.fst) }
          (C ++ [(loader_filename p n, code)])
          ((C ++ [(loader_filename p n, code)]).map Prod.fst) rfl rfl).trans
          (names_any_false _ n hall)
      · cases hst : s.staged with
        | none =>
          refine remove3_noop_keeps n _ (C ++ [(loader_filename p n, code)])
            (loader_filename p n, code) rfl hq' ?_
            (List.mem_append_right _ (List.mem_singleton.mpr rfl))
          intro en hen
          apply hall
          simpa [removeSource, hst] using hen
        | some st =>
          refine remove3_noop_keeps n _ (C ++ [(loader_filename p n, code)])
            (loader_filename p n, code) rfl hq' ?_
            (List.mem_append_right _ (List.mem_singleton.mpr rfl))
          intro en hen
          apply hcleanS
          simp only [hst, Option.getD_some]
          simpa [removeSource, hst] using hen
    | none =>
      rw [add3_live_none p n code plat s hq' hl]
      refine ⟨⟨[(dependency_metadata_json_name, loader_metadata_enc plat),
          (loader_filename p n, code)], by simp [package_to_update, hq'], by simp⟩,
          ?_, ?_, ?_⟩
      · exact ⟨[dependency_metadata_json_name, loader_filename p n], rfl, by simp⟩
      · exact (exists3_cached n
          { s with live := some [(dependency_metadata_json_name, loader_metadata_enc plat),
                                 (loader_filename p n, code)]
                   loaders := some [dependency_metadata_json_name, loader_filename p n] }
          [(dependency_metadata_json_name, loader_metadata_enc plat),
           (loader_filename p n, code)]
          [dependency_metadata_json_name, loader_filename p n] rfl rfl).trans
          (any_pair_false (re_match_metadata n) hm)
      · cases hst : s.staged with
        | none =>
          refine remove3_noop_keeps n _
            [(dependency_metadata_json_name, loader_metadata_enc plat),
             (loader_filename p n, code)]
            (loader_filename p n, code) rfl hq' ?_ (by simp)
          intro en hen
          have hen' : en ∈
              [(dependency_metadata_json_name, loader_metadata_enc plat),
               (loader_filename p n, code)] := by
            simpa [removeSource, hst] using hen
          rcases List.mem_cons.mp hen' with rfl | hen2
          · exact re_match_metadata n
          · rw [List.mem_singleton.mp hen2]
            exact hm
        | some st =>
          refine remove3_noop_keeps n _
            [(dependency_metadata_json_name, loader_metadata_enc plat),
             (loader_filename p n, code)]
            (loader_filename p n, code) rfl hq' ?_ (by simp)
          intro en hen
          apply hcleanS
          simp only [hst, Option.getD_some]
          simpa [removeSource, hst] using hen

/-- Witness for C10: adding `foo` with the one-digit priority "7" into an
empty state; the written entry `7-foo.py` is invisible to `exists` and
survives `remove`. -/
theorem claim10_bad_priority_witness :
    isTwoPyDigit ['7'] = false ∧
    (emptyState.swap_queued = true → emptyState.live.isSome = true) ∧
    (∀ en ∈ emptyState.live.getD [] ++ emptyState.staged.getD [],
      re_match_loader fooName en.1 = false) ∧
    (re_match_loader fooName (loader_filename ['7'] fooName) = false ∧
     (∃ T, package_to_update (add3 ['7'] fooName [] Platform.linux emptyState).state
        = some T ∧ (loader_filename ['7'] fooName, ([] : List Nat)) ∈ T) ∧
     (∃ ns, (add3 ['7'] fooName [] Platform.linux emptyState).state.loaders = some ns ∧
        loader_filename ['7'] fooName ∈ ns) ∧
     (exists3 fooName (add3 ['7'] fooName [] Platform.linux emptyState).state).1 = false ∧
     (∃ arr, currentArchive
         (remove3 fooName ZipError.noErr
           (add3 ['7'] fooName [] Platform.linux emptyState).state).state = some arr ∧
       (loader_filename ['7'] fooName, ([] : List Nat)) ∈ arr)) :=
  ⟨rfl, by decide, by decide,
   claim10_bad_priority ['7'] fooName [] Platform.linux emptyState rfl (by decide)
     (by decide)⟩

end Loader
